import Mathlib

/-!
Verification of the task-tracker store (`task_manager.py` / `task_cli.py`).

The collection of tasks is embedded as a `List Task`.  Every operation of
`TaskManager` performs a full load / mutate / save pass; here each operation
is the pure function on the loaded collection, returning the value the
Python method returns, the collection that is (or would be) saved, a flag
`wrote` recording whether `save_tasks` was invoked, and the lines the method
prints.  Time (`datetime.now().strftime(...)`) is passed in as an explicit
`now : String`.  Python `str.strip()` is modelled by `pyStrip` (remove
leading and trailing whitespace).
-/

namespace TaskTracker

/-- A task record, with the five fields `add_task` writes to the JSON file. -/
structure Task where
  id : Int
  description : String
  status : String
  created_at : String
  updated_at : String
deriving Repr, DecidableEq

/-- The list of valid statuses, as in `task_manager.py` (`valid_statuses`). -/
def valid_statuses : List String := ["todo", "in_progress", "done"]

/-- Python `str.strip()`: remove leading and trailing whitespace (modelled
on the character list, with `Char.isWhitespace` as the whitespace class). -/
def pyStrip (s : String) : String :=
  String.mk (((s.data.dropWhile Char.isWhitespace).reverse.dropWhile
    Char.isWhitespace).reverse)

/-- Outcome of one `TaskManager` operation: the returned value, the stored
collection after the call, whether `save_tasks` was invoked, and the lines
printed. -/
structure OpOutcome (α : Type) where
  ret : α
  tasks : List Task
  wrote : Bool
  output : List String
deriving Repr, DecidableEq

/-- `max([task["id"] for task in tasks], default=0)`: the maximum of the ids,
`0` for an empty collection. -/
def maxIdDefault0 (tasks : List Task) : Int :=
  match tasks.map Task.id with
  | [] => 0
  | x :: xs => xs.foldl max x

/-- `TaskManager.add_task`: reject a blank description; otherwise assign
`max id + 1`, append the new task with status `todo` and both timestamps set
to `now`, and save. -/
def add_task (tasks : List Task) (description : String) (now : String) :
    OpOutcome (Option Int) :=
  if description = "" ∨ pyStrip description = "" then
    ⟨none, tasks, false, ["Error: Task description cannot be empty."]⟩
  else
    let new_id := maxIdDefault0 tasks + 1
    let new_task : Task :=
      { id := new_id, description := pyStrip description, status := "todo",
        created_at := now, updated_at := now }
    ⟨some new_id, tasks ++ [new_task], true, []⟩

/-- The `for task in tasks: if task["id"] == task_id: ...; return` pattern:
apply `f` to the first task with the given id, leaving the rest untouched;
`none` when no task matches. -/
def updateFirst (tasks : List Task) (task_id : Int) (f : Task → Task) :
    Option (List Task) :=
  match tasks with
  | [] => none
  | t :: ts =>
    if t.id = task_id then some (f t :: ts)
    else (updateFirst ts task_id f).map (t :: ·)

/-- `TaskManager.update_task`: reject a blank description; find the task by
id, replace its description (stripped) and `updated_at`, save; report
not-found otherwise. -/
def update_task (tasks : List Task) (task_id : Int) (description : String)
    (now : String) : OpOutcome Bool :=
  if description = "" ∨ pyStrip description = "" then
    ⟨false, tasks, false, ["Error: Task description cannot be empty."]⟩
  else
    match updateFirst tasks task_id
        (fun t => { t with description := pyStrip description, updated_at := now }) with
    | some ts => ⟨true, ts, true, []⟩
    | none =>
      ⟨false, tasks, false, ["Task " ++ toString task_id ++ " not found."]⟩

/-- `TaskManager.delete_task`: keep the tasks whose id differs; if nothing
was removed report not-found, otherwise save the remainder. -/
def delete_task (tasks : List Task) (task_id : Int) : OpOutcome Bool :=
  let remaining := tasks.filter (fun t => !(t.id == task_id))
  if remaining.length = tasks.length then
    ⟨false, tasks, false, ["Task " ++ toString task_id ++ " not found."]⟩
  else
    ⟨true, remaining, true, []⟩

/-- `TaskManager.change_status`: reject a status outside `valid_statuses`;
find the task by id, replace its status and `updated_at`, save; report
not-found otherwise. -/
def change_status (tasks : List Task) (task_id : Int) (status : String)
    (now : String) : OpOutcome Bool :=
  if ¬ status ∈ valid_statuses then
    ⟨false, tasks, false,
      ["Error: Invalid status " ++ status ++
       ". Valid statuses are: todo, in_progress, done"]⟩
  else
    match updateFirst tasks task_id
        (fun t => { t with status := status, updated_at := now }) with
    | some ts => ⟨true, ts, true, []⟩
    | none =>
      ⟨false, tasks, false, ["Task " ++ toString task_id ++ " not found."]⟩

/-- `TaskManager.get_tasks`: with no filter, or with a falsy (empty-string)
filter, return all tasks; with an invalid filter warn and return `[]`;
otherwise keep the tasks with the given status.  The second component is the
printed warning lines. -/
def get_tasks (tasks : List Task) (status : Option String) :
    List Task × List String :=
  match status with
  | none => (tasks, [])
  | some s =>
    if s = "" then (tasks, [])
    else if s ∈ valid_statuses then
      (tasks.filter (fun t => t.status == s), [])
    else
      ([], ["Warning: Invalid status " ++ s ++
            ". Valid statuses are: todo, in_progress, done"])

/-- `task_cli.list_tasks`: the tasks the CLI version lists — all of them when
the filter is `None` or falsy (empty string), otherwise those matching the
status (no validity check in this version). -/
def list_tasks (tasks : List Task) (status : Option String) : List Task :=
  match status with
  | none => tasks
  | some s =>
    if s = "" then tasks
    else tasks.filter (fun t => t.status == s)

/-! ### Persistence

`load_tasks` / `save_tasks` read and write JSON.  The file is modelled at
the level of the parsed JSON value: `json.dumps` of a value followed by
`json.loads` recovers the same value (numbers here are integers), so a file
is, up to formatting, an abstract syntax tree.  `FileState` records the case
split `load_tasks` performs: file absent (`exists()` false), content blank
after `strip()`, content that raises `JSONDecodeError`, an OS read error
(the catch-all `except`), or content parsing to a JSON value. -/

/-- JSON values, as produced by `json.loads`. -/
inductive Json where
  | null : Json
  | bool (b : Bool) : Json
  | num (n : Int) : Json
  | str (s : String) : Json
  | arr (elems : List Json) : Json
  | obj (fields : List (String × Json)) : Json
deriving Repr

/-- Lookup of a key in a JSON object (`task["id"]` etc.; `json.dumps` never
emits duplicate keys, so first-match lookup agrees with Python dicts here). -/
def Json.lookup (fields : List (String × Json)) (key : String) : Option Json :=
  match fields with
  | [] => none
  | (k, v) :: rest => if k = key then some v else Json.lookup rest key

/-- The JSON object `add_task` builds for a task (the shape `save_tasks`
writes). -/
def encodeTask (t : Task) : Json :=
  .obj [("id", .num t.id), ("description", .str t.description),
        ("status", .str t.status), ("created_at", .str t.created_at),
        ("updated_at", .str t.updated_at)]

/-- The JSON array `save_tasks` writes for a collection. -/
def encodeTasks (tasks : List Task) : Json :=
  .arr (tasks.map encodeTask)

/-- Read a task back from a JSON value: an object whose five task keys are
present with the expected types (extra keys are ignored, matching the
`task[...]` access pattern of the Python code). -/
def decodeTask (j : Json) : Option Task :=
  match j with
  | .obj fields =>
    match Json.lookup fields "id", Json.lookup fields "description",
          Json.lookup fields "status", Json.lookup fields "created_at",
          Json.lookup fields "updated_at" with
    | some (.num i), some (.str d), some (.str s), some (.str c), some (.str u) =>
      some { id := i, description := d, status := s, created_at := c, updated_at := u }
    | _, _, _, _, _ => none
  | _ => none

/-- Read a list of tasks from a list of JSON values, failing if any element
fails. -/
def decodeTaskList (js : List Json) : Option (List Task) :=
  match js with
  | [] => some []
  | j :: rest =>
    match decodeTask j, decodeTaskList rest with
    | some t, some ts => some (t :: ts)
    | _, _ => none

/-- Read a collection from a JSON value: a JSON array of task objects. -/
def decodeTasks (j : Json) : Option (List Task) :=
  match j with
  | .arr elems => decodeTaskList elems
  | _ => none

/-- The states of the backing file `load_tasks` distinguishes. -/
inductive FileState where
  | absent : FileState
  | blank : FileState
  | malformed : FileState
  | readError : FileState
  | wellFormed (j : Json) : FileState
deriving Repr

/-- `TaskManager.load_tasks`: the parsed JSON value (the Python function
returns the parsed object unvalidated) together with the printed lines.
Absent or blank file: the empty list, silently.  `JSONDecodeError`: a
warning, then the empty list.  Other read errors: an error line, then the
empty list.  No case raises. -/
def load_tasks (f : FileState) : Json × List String :=
  match f with
  | .absent => (.arr [], [])
  | .blank => (.arr [], [])
  | .malformed =>
    (.arr [], ["Warning: tasks file contains invalid JSON. Starting with an empty task list."])
  | .readError => (.arr [], ["Error loading tasks."])
  | .wellFormed j => (j, [])

/-- `TaskManager.save_tasks`, successful case: the file afterwards holds
`json.dumps(tasks, indent=4)`, which is non-blank and parses back to the
dumped value — the state `wellFormed (encodeTasks tasks)`.  (A failing write
returns `False` and is outside this model.) -/
def save_tasks (tasks : List Task) : FileState :=
  .wellFormed (encodeTasks tasks)

/-- A concrete `todo` task, used to instantiate theorems with hypotheses. -/
def sampleTodo : Task :=
  { id := 1, description := "buy milk", status := "todo",
    created_at := "2024-01-01 09:00:00", updated_at := "2024-01-01 09:00:00" }

/-- A concrete `done` task, used to instantiate theorems with hypotheses. -/
def sampleDone : Task :=
  { id := 2, description := "write report", status := "done",
    created_at := "2024-01-01 10:00:00", updated_at := "2024-01-02 10:00:00" }

/-! ### Helper lemmas -/

theorem le_foldl_max (xs : List Int) (x : Int) : x ≤ xs.foldl max x := by
  induction xs generalizing x with
  | nil => exact le_refl x
  | cons y ys ih =>
    exact le_trans (le_max_left x y) (ih (max x y))

theorem mem_le_foldl_max (xs : List Int) (x y : Int) (hy : y ∈ xs) :
    y ≤ xs.foldl max x := by
  induction xs generalizing x with
  | nil => cases hy
  | cons z zs ih =>
    rcases List.mem_cons.mp hy with rfl | hmem
    · exact le_trans (le_max_right x y) (le_foldl_max zs (max x y))
    · exact ih (max x z) hmem

theorem foldl_max_mem (xs : List Int) (x : Int) :
    xs.foldl max x = x ∨ xs.foldl max x ∈ xs := by
  induction xs generalizing x with
  | nil => exact Or.inl rfl
  | cons z zs ih =>
    rcases ih (max x z) with h | h
    · rcases max_choice x z with hm | hm
      · exact Or.inl (by rw [List.foldl_cons, h, hm])
      · exact Or.inr (by rw [List.foldl_cons, h, hm]; exact List.mem_cons_self z zs)
    · exact Or.inr (List.mem_cons_of_mem z h)

theorem le_maxIdDefault0 (tasks : List Task) (t : Task) (ht : t ∈ tasks) :
    t.id ≤ maxIdDefault0 tasks := by
  cases tasks with
  | nil => cases ht
  | cons t0 ts =>
    show t.id ≤ (ts.map Task.id).foldl max t0.id
    rcases List.mem_cons.mp ht with rfl | hmem
    · exact le_foldl_max (ts.map Task.id) t.id
    · exact mem_le_foldl_max (ts.map Task.id) t0.id t.id (List.mem_map_of_mem Task.id hmem)

theorem maxIdDefault0_mem (tasks : List Task) (h : tasks ≠ []) :
    maxIdDefault0 tasks ∈ tasks.map Task.id := by
  cases tasks with
  | nil => exact absurd rfl h
  | cons t0 ts =>
    show (ts.map Task.id).foldl max t0.id ∈ t0.id :: ts.map Task.id
    rcases foldl_max_mem (ts.map Task.id) t0.id with he | he
    · rw [he]; exact List.mem_cons_self _ _
    · exact List.mem_cons_of_mem _ he

theorem updateFirst_eq_none (tasks : List Task) (task_id : Int) (f : Task → Task) :
    updateFirst tasks task_id f = none ↔ ∀ t ∈ tasks, t.id ≠ task_id := by
  induction tasks with
  | nil => simp [updateFirst]
  | cons t ts ih =>
    by_cases h : t.id = task_id
    · simp [updateFirst, h]
    · simp [updateFirst, h, Option.map_eq_none, ih]

theorem updateFirst_map_id (tasks : List Task) (task_id : Int) (f : Task → Task)
    (hf : ∀ t, (f t).id = t.id) (ts : List Task)
    (h : updateFirst tasks task_id f = some ts) :
    ts.map Task.id = tasks.map Task.id := by
  induction tasks generalizing ts with
  | nil => simp [updateFirst] at h
  | cons t rest ih =>
    by_cases hid : t.id = task_id
    · simp only [updateFirst, if_pos hid, Option.some.injEq] at h
      subst h
      simp [hf t]
    · unfold updateFirst at h
      rw [if_neg hid] at h
      cases hrec : updateFirst rest task_id f with
      | none => rw [hrec] at h; simp at h
      | some us =>
        rw [hrec] at h
        have hts : t :: us = ts := by simpa using h
        subst hts
        simp [ih us hrec]

theorem mem_get_tasks (tasks : List Task) (s : Option String) (t : Task)
    (h : t ∈ (get_tasks tasks s).1) : t ∈ tasks := by
  match s with
  | none => exact h
  | some str =>
    by_cases he : str = ""
    · simpa [get_tasks, he] using h
    · by_cases hv : str ∈ valid_statuses
      · simp only [get_tasks, if_neg he, if_pos hv] at h
        exact (List.mem_filter.mp h).1
      · simp [get_tasks, he, hv] at h

theorem decodeTask_encodeTask (t : Task) : decodeTask (encodeTask t) = some t := rfl

theorem decodeTaskList_encode (ts : List Task) :
    decodeTaskList (ts.map encodeTask) = some ts := by
  induction ts with
  | nil => rfl
  | cons t rest ih => simp [decodeTaskList, decodeTask_encodeTask, ih]

theorem decodeTasks_encodeTasks (ts : List Task) :
    decodeTasks (encodeTasks ts) = some ts := by
  simp [decodeTasks, encodeTasks, decodeTaskList_encode]

theorem delete_task_tasks_eq (tasks : List Task) (task_id : Int) :
    (delete_task tasks task_id).tasks =
      tasks.filter (fun t => !(t.id == task_id)) := by
  by_cases hlen :
      (tasks.filter (fun t => !(t.id == task_id))).length = tasks.length
  · have hall := List.filter_length_eq_length.mp hlen
    have e : delete_task tasks task_id =
        ⟨false, tasks, false, ["Task " ++ toString task_id ++ " not found."]⟩ := by
      unfold delete_task
      rw [if_pos hlen]
    rw [e]
    exact (List.filter_eq_self.mpr hall).symm
  · have e : delete_task tasks task_id =
        ⟨true, tasks.filter (fun t => !(t.id == task_id)), true, []⟩ := by
      unfold delete_task
      rw [if_neg hlen]
    rw [e]

/-! ### The claims -/

/-- C1: on a valid (non-blank) description, `add_task` returns the id
`maxIdDefault0 tasks + 1` — where `maxIdDefault0` is an upper bound of the
existing ids, attained when the collection is non-empty, and `0` when it is
empty, so the new id is `max existing id + 1`, and `1` on an empty
collection — and appends the new task with status `"todo"`. -/
theorem add_task_assigns_next_id (tasks : List Task) (d now : String)
    (h : pyStrip d ≠ "") :
    (add_task tasks d now).ret = some (maxIdDefault0 tasks + 1) ∧
    (add_task tasks d now).tasks =
      tasks ++ [{ id := maxIdDefault0 tasks + 1, description := pyStrip d,
                  status := "todo", created_at := now, updated_at := now }] ∧
    (tasks = [] → maxIdDefault0 tasks + 1 = 1) ∧
    (∀ t ∈ tasks, t.id ≤ maxIdDefault0 tasks) ∧
    (tasks ≠ [] → maxIdDefault0 tasks ∈ tasks.map Task.id) := by
  have hcond : ¬(d = "" ∨ pyStrip d = "") := by
    rintro (rfl | h2)
    · exact h (by decide)
    · exact h h2
  have e : add_task tasks d now =
      ⟨some (maxIdDefault0 tasks + 1),
       tasks ++ [{ id := maxIdDefault0 tasks + 1, description := pyStrip d,
                   status := "todo", created_at := now, updated_at := now }],
       true, []⟩ := by
    unfold add_task
    rw [if_neg hcond]
  refine ⟨by rw [e], by rw [e], ?_, ?_, ?_⟩
  · rintro rfl; decide
  · exact fun t ht => le_maxIdDefault0 tasks t ht
  · exact maxIdDefault0_mem tasks

/-- Witness for C1: adding to the two-task sample store returns id 3. -/
theorem add_task_assigns_next_id_witness :
    pyStrip "water plants" ≠ "" ∧
    (add_task [sampleTodo, sampleDone] "water plants" "2024-01-03 08:00:00").ret
      = some 3 := by
  have h : pyStrip "water plants" ≠ "" := by decide
  refine ⟨h, ?_⟩
  rw [(add_task_assigns_next_id [sampleTodo, sampleDone] "water plants"
        "2024-01-03 08:00:00" h).1]
  decide

/-- C2: on an empty or whitespace-only description, `add_task` returns
`None`, leaves the collection unchanged, and does not save. -/
theorem add_task_blank_rejected (tasks : List Task) (d now : String)
    (h : pyStrip d = "") :
    (add_task tasks d now).ret = none ∧
    (add_task tasks d now).tasks = tasks ∧
    (add_task tasks d now).wrote = false := by
  have e : add_task tasks d now =
      ⟨none, tasks, false, ["Error: Task description cannot be empty."]⟩ := by
    unfold add_task
    rw [if_pos (Or.inr h)]
  exact ⟨by rw [e], by rw [e], by rw [e]⟩

/-- Witness for C2: both `add("")` and `add("   ")` are rejected on a
concrete store. -/
theorem add_task_blank_rejected_witness :
    ((pyStrip "") = "" ∧
     (add_task [sampleTodo] "" "2024-01-03 08:00:00").tasks = [sampleTodo]) ∧
    ((pyStrip "   ") = "" ∧
     (add_task [sampleTodo] "   " "2024-01-03 08:00:00").ret = none) :=
  ⟨⟨by decide,
    (add_task_blank_rejected [sampleTodo] "" "2024-01-03 08:00:00" (by decide)).2.1⟩,
   ⟨by decide,
    (add_task_blank_rejected [sampleTodo] "   " "2024-01-03 08:00:00" (by decide)).1⟩⟩

/-- C3: on a status outside `{todo, in_progress, done}`, `change_status`
returns `False`, leaves every task unchanged, and does not save — for every
id. -/
theorem change_status_invalid_rejected (tasks : List Task) (task_id : Int)
    (s now : String) (h : s ∉ valid_statuses) :
    (change_status tasks task_id s now).ret = false ∧
    (change_status tasks task_id s now).tasks = tasks ∧
    (change_status tasks task_id s now).wrote = false := by
  have e : change_status tasks task_id s now =
      ⟨false, tasks, false,
       ["Error: Invalid status " ++ s ++
        ". Valid statuses are: todo, in_progress, done"]⟩ := by
    unfold change_status
    rw [if_pos h]
  exact ⟨by rw [e], by rw [e], by rw [e]⟩

/-- Witness for C3: marking with the misspelled status `"doneee"` is
rejected on a concrete store. -/
theorem change_status_invalid_rejected_witness :
    ("doneee" : String) ∉ valid_statuses ∧
    (change_status [sampleTodo, sampleDone] 1 "doneee" "2024-01-03 08:00:00").tasks
      = [sampleTodo, sampleDone] := by
  have h : ("doneee" : String) ∉ valid_statuses := by decide
  exact ⟨h, (change_status_invalid_rejected [sampleTodo, sampleDone] 1 "doneee"
              "2024-01-03 08:00:00" h).2.1⟩

/-- C4: on an id not present in the collection, `update_task` with a valid
description returns `False`, leaves the collection unchanged, does not save,
and prints the not-found line. -/
theorem update_task_not_found (tasks : List Task) (task_id : Int)
    (d now : String) (hd : pyStrip d ≠ "")
    (hid : ∀ t ∈ tasks, t.id ≠ task_id) :
    (update_task tasks task_id d now).ret = false ∧
    (update_task tasks task_id d now).tasks = tasks ∧
    (update_task tasks task_id d now).wrote = false ∧
    (update_task tasks task_id d now).output =
      ["Task " ++ toString task_id ++ " not found."] := by
  have hcond : ¬(d = "" ∨ pyStrip d = "") := by
    rintro (rfl | h2)
    · exact hd (by decide)
    · exact hd h2
  have hnone : updateFirst tasks task_id
      (fun t => { t with description := pyStrip d, updated_at := now }) = none :=
    (updateFirst_eq_none tasks task_id _).mpr hid
  have e : update_task tasks task_id d now =
      ⟨false, tasks, false, ["Task " ++ toString task_id ++ " not found."]⟩ := by
    unfold update_task
    rw [if_neg hcond, hnone]
  exact ⟨by rw [e], by rw [e], by rw [e], by rw [e]⟩

/-- Witness for C4: updating the absent id 5 on the two-task sample store is
a reported no-op. -/
theorem update_task_not_found_witness :
    pyStrip "new text" ≠ "" ∧
    (∀ t ∈ [sampleTodo, sampleDone], t.id ≠ (5 : Int)) ∧
    (update_task [sampleTodo, sampleDone] 5 "new text" "2024-01-03 08:00:00").tasks
      = [sampleTodo, sampleDone] := by
  have h1 : pyStrip "new text" ≠ "" := by decide
  have h2 : ∀ t ∈ [sampleTodo, sampleDone], t.id ≠ (5 : Int) := by decide
  exact ⟨h1, h2, (update_task_not_found [sampleTodo, sampleDone] 5 "new text"
                   "2024-01-03 08:00:00" h1 h2).2.1⟩

/-- C5: `delete_task` keeps exactly the tasks whose id differs (in stored
order), fails when the id is absent, succeeds when present, and no
subsequent `get_tasks` — with or without a status filter — returns a task
with the deleted id. -/
theorem delete_task_removes_id (tasks : List Task) (task_id : Int) :
    (delete_task tasks task_id).tasks =
      tasks.filter (fun t => !(t.id == task_id)) ∧
    ((∀ t ∈ tasks, t.id ≠ task_id) →
      (delete_task tasks task_id).ret = false ∧
      (delete_task tasks task_id).wrote = false) ∧
    ((∃ t ∈ tasks, t.id = task_id) → (delete_task tasks task_id).ret = true) ∧
    (∀ s : Option String, ∀ t,
      t ∈ (get_tasks (delete_task tasks task_id).tasks s).1 →
        t.id ≠ task_id) := by
  have hp : ∀ t : Task, ((!(t.id == task_id)) = true ↔ t.id ≠ task_id) := by
    intro t; simp
  have htasks := delete_task_tasks_eq tasks task_id
  refine ⟨htasks, ?_, ?_, ?_⟩
  · intro hno
    have hall : ∀ t ∈ tasks, (!(t.id == task_id)) = true :=
      fun t ht => (hp t).mpr (hno t ht)
    have hlen : (tasks.filter (fun t => !(t.id == task_id))).length = tasks.length :=
      List.filter_length_eq_length.mpr hall
    have e : delete_task tasks task_id =
        ⟨false, tasks, false, ["Task " ++ toString task_id ++ " not found."]⟩ := by
      unfold delete_task
      rw [if_pos hlen]
    exact ⟨by rw [e], by rw [e]⟩
  · rintro ⟨t, ht, hid⟩
    have hlen : ¬(tasks.filter (fun t => !(t.id == task_id))).length = tasks.length := by
      intro hlen
      exact ((hp t).mp (List.filter_length_eq_length.mp hlen t ht)) hid
    have e : delete_task tasks task_id =
        ⟨true, tasks.filter (fun t => !(t.id == task_id)), true, []⟩ := by
      unfold delete_task
      rw [if_neg hlen]
    rw [e]
  · intro s t hmem
    have h1 : t ∈ (delete_task tasks task_id).tasks :=
      mem_get_tasks _ s t hmem
    rw [htasks] at h1
    exact (hp t).mp (List.mem_filter.mp h1).2

/-- Witness for C5: deleting id 2 from the two-task sample store leaves
exactly the other task, and listing afterwards does not show id 2. -/
theorem delete_task_removes_id_witness :
    (delete_task [sampleTodo, sampleDone] 2).tasks = [sampleTodo] ∧
    (∀ t ∈ (get_tasks (delete_task [sampleTodo, sampleDone] 2).tasks none).1,
      t.id ≠ (2 : Int)) := by
  have h := delete_task_removes_id [sampleTodo, sampleDone] 2
  refine ⟨?_, fun t ht => h.2.2.2 none t ht⟩
  rw [h.1]
  decide

/-- C6: `load_tasks` yields the empty collection, with no message, when the
file is absent or its content is blank, and on malformed content it prints
the warning line and still yields the empty collection.  `load_tasks` is a
total function: no case raises or terminates the program. -/
theorem load_tasks_tolerant_defaults :
    load_tasks .absent = (Json.arr [], []) ∧
    load_tasks .blank = (Json.arr [], []) ∧
    (load_tasks .malformed).1 = Json.arr [] ∧
    (load_tasks .malformed).2 =
      ["Warning: tasks file contains invalid JSON. Starting with an empty task list."] :=
  ⟨rfl, rfl, rfl, rfl⟩

/-- C7: for a well-formed backing file — one whose JSON value decodes to a
task list `ts` — saving the loaded collection produces a file that loads to
the same sequence of tasks (`save(load())` is idempotent up to file
formatting). -/
theorem save_load_roundtrip (j : Json) (ts : List Task)
    (h : decodeTasks j = some ts) :
    decodeTasks (load_tasks (save_tasks ts)).1 = some ts ∧
    decodeTasks (load_tasks (save_tasks ts)).1 =
      decodeTasks (load_tasks (.wellFormed j)).1 := by
  have h1 : decodeTasks (load_tasks (save_tasks ts)).1 = some ts := by
    show decodeTasks (encodeTasks ts) = some ts
    exact decodeTasks_encodeTasks ts
  exact ⟨h1, by rw [h1]; exact h.symm⟩

/-- Witness for C7: the round trip on a concrete one-task file. -/
theorem save_load_roundtrip_witness :
    decodeTasks (encodeTasks [sampleTodo]) = some [sampleTodo] ∧
    decodeTasks (load_tasks (save_tasks [sampleTodo])).1 = some [sampleTodo] :=
  ⟨rfl, (save_load_roundtrip (encodeTasks [sampleTodo]) [sampleTodo] rfl).1⟩

/-- C8: with a valid status filter, `get_tasks` returns exactly the tasks
whose status equals the filter, in stored order, with no warning. -/
theorem get_tasks_valid_status_filters (tasks : List Task) (s : String)
    (h : s ∈ valid_statuses) :
    (get_tasks tasks (some s)).1 = tasks.filter (fun t => t.status == s) ∧
    (get_tasks tasks (some s)).2 = [] ∧
    (∀ t, t ∈ (get_tasks tasks (some s)).1 ↔ t ∈ tasks ∧ t.status = s) := by
  have hne : s ≠ "" := fun he => absurd (he ▸ h) (by decide)
  have e : get_tasks tasks (some s) =
      (tasks.filter (fun t => t.status == s), []) := by
    show (if s = "" then (tasks, [])
          else if s ∈ valid_statuses then
            (tasks.filter (fun t => t.status == s), [])
          else ([], ["Warning: Invalid status " ++ s ++
                     ". Valid statuses are: todo, in_progress, done"])) =
        (tasks.filter (fun t => t.status == s), [])
    rw [if_neg hne, if_pos h]
  refine ⟨by rw [e], by rw [e], ?_⟩
  intro t
  rw [e]
  simp [List.mem_filter]

/-- Witness for C8: on the store `[{id 1, todo}, {id 2, done}]`, listing
`"done"` returns exactly the task with id 2. -/
theorem get_tasks_valid_status_filters_witness :
    ("done" : String) ∈ valid_statuses ∧
    (get_tasks [sampleTodo, sampleDone] (some "done")).1 = [sampleDone] := by
  have h : ("done" : String) ∈ valid_statuses := by decide
  refine ⟨h, ?_⟩
  rw [(get_tasks_valid_status_filters [sampleTodo, sampleDone] "done" h).1]
  decide

theorem update_task_map_id (tasks : List Task) (task_id : Int)
    (d now : String) :
    (update_task tasks task_id d now).tasks.map Task.id = tasks.map Task.id := by
  unfold update_task
  by_cases hc : d = "" ∨ pyStrip d = ""
  · rw [if_pos hc]
  · rw [if_neg hc]
    cases hu : updateFirst tasks task_id
        (fun t => { t with description := pyStrip d, updated_at := now }) with
    | none => rfl
    | some ts =>
      exact updateFirst_map_id tasks task_id
        (fun t => { t with description := pyStrip d, updated_at := now })
        (fun t => rfl) ts hu

theorem change_status_map_id (tasks : List Task) (task_id : Int)
    (s now : String) :
    (change_status tasks task_id s now).tasks.map Task.id = tasks.map Task.id := by
  unfold change_status
  by_cases hc : ¬ s ∈ valid_statuses
  · rw [if_pos hc]
  · rw [if_neg hc]
    cases hu : updateFirst tasks task_id
        (fun t => { t with status := s, updated_at := now }) with
    | none => rfl
    | some ts =>
      exact updateFirst_map_id tasks task_id
        (fun t => { t with status := s, updated_at := now })
        (fun t => rfl) ts hu

/-- C9: every operation preserves uniqueness of the ids: starting from a
collection whose ids are pairwise distinct, the collection after `add_task`,
`update_task`, `delete_task` or `change_status` again has pairwise-distinct
ids. -/
theorem operations_preserve_unique_ids (tasks : List Task) (d s now : String)
    (task_id : Int) (h : (tasks.map Task.id).Nodup) :
    ((add_task tasks d now).tasks.map Task.id).Nodup ∧
    ((update_task tasks task_id d now).tasks.map Task.id).Nodup ∧
    ((delete_task tasks task_id).tasks.map Task.id).Nodup ∧
    ((change_status tasks task_id s now).tasks.map Task.id).Nodup := by
  refine ⟨?_, by rw [update_task_map_id]; exact h, ?_,
          by rw [change_status_map_id]; exact h⟩
  · by_cases hc : d = "" ∨ pyStrip d = ""
    · have e : add_task tasks d now =
          ⟨none, tasks, false, ["Error: Task description cannot be empty."]⟩ := by
        unfold add_task
        rw [if_pos hc]
      rw [e]
      exact h
    · have e : (add_task tasks d now).tasks =
          tasks ++ [{ id := maxIdDefault0 tasks + 1, description := pyStrip d,
                      status := "todo", created_at := now, updated_at := now }] := by
        unfold add_task
        rw [if_neg hc]
      have hnotmem : maxIdDefault0 tasks + 1 ∉ tasks.map Task.id := by
        intro hmem
        obtain ⟨t, ht, hid⟩ := List.mem_map.mp hmem
        have := le_maxIdDefault0 tasks t ht
        omega
      rw [e, List.map_append]
      simp [List.nodup_append, h, hnotmem]
  · rw [delete_task_tasks_eq]
    exact h.sublist ((List.filter_sublist tasks).map Task.id)

/-- Witness for C9: the two-task sample store has distinct ids, and still
does after deleting id 2. -/
theorem operations_preserve_unique_ids_witness :
    ([sampleTodo, sampleDone].map Task.id).Nodup ∧
    ((delete_task [sampleTodo, sampleDone] 2).tasks.map Task.id).Nodup := by
  have h : ([sampleTodo, sampleDone].map Task.id).Nodup := by decide
  exact ⟨h, (operations_preserve_unique_ids [sampleTodo, sampleDone]
              "x" "done" "2024-01-03 08:00:00" 2 h).2.2.1⟩

/-- C10: an empty-string status filter is falsy in Python, so both
`TaskManager.get_tasks` and the CLI `list_tasks` treat it as no filter:
all tasks are returned, with no warning and no empty result. -/
theorem empty_status_filter_returns_all (tasks : List Task) :
    (get_tasks tasks (some "")).1 = tasks ∧
    (get_tasks tasks (some "")).2 = [] ∧
    list_tasks tasks (some "") = tasks := by
  refine ⟨?_, ?_, ?_⟩ <;> simp [get_tasks, list_tasks]

end TaskTracker
